import Mathlib

/-!
Verification development for the lightbulb service-monitor frontend.

The development shallowly embeds the parts of the repository that the
specification talks about:

- the dependency-graph traversals `get_downstream_dependents` and
  `get_upstream_dependencies` (DetailedFlowView / App);
- the outage-affected-set computation inside `getElementLayout`;
- the per-group status tally `statusSummaryByType` (ServiceList);
- the `StatusManager` class (statusManager.tsx): status map updates,
  notification fan-out, batch fetch resolution, cleanup, fallback-polling
  timers and the WebSocket reconnect timeout;
- a reference-level (heap) model of `getStatusMap` used to study the
  aliasing behaviour of the shallow spread copy.

All definitions are executable; machine integers of the source are modelled
as `Int` (status codes) and `Nat` (times, counts).
-/

/- ================================================================
   Section 1: dependency graph traversals.

   Source: DetailedFlowView (src/unnamed/part_001) lines 21-66, duplicated
   verbatim in App (src/unnamed/part_000) lines 145-166.  The two source
   functions are textually identical up to swapping the roles of
   `edge.source` and `edge.target`, so they are embedded through one core
   parameterised by the two edge projections.

   The JavaScript recursion

     const findDownstream = (serviceId) => {
       if (visited.has(serviceId)) return;
       visited.add(serviceId);
       const dependentEdges = edges.filter(edge => edge.source === serviceId);
       dependentEdges.forEach(edge => {
         dependents.add(edge.target);
         findDownstream(edge.target);
       });
     };

   terminates because `visited` only grows and stays inside the finite set
   of edge endpoints.  The embedding makes that explicit with a fuel
   argument; `edges.length + 2` units of fuel are proven sufficient below
   (lemma `reachVisit_invariant` carries the counting argument).
   ================================================================ -/

/-- A react-flow node as used by the traversals: only its `id` is read. -/
structure FlowNode where
  id : String
deriving DecidableEq

/-- A react-flow edge as built from a ServiceRelation: `id`, `source`,
`target`. -/
structure FlowEdge where
  id : String
  source : String
  target : String
deriving DecidableEq

/-- The inner `forEach` loop of the traversal: for each target in `ids`,
add it to the result set (`found`) and recurse into it via `step`.  JS
`Set.add` is modelled as prepend-if-absent (only membership of the set is
ever observed). -/
def reachTargets (step : List String → List String → String → List String × List String) :
    List String → List String → List String → List String × List String
  | found, visited, [] => (found, visited)
  | found, visited, t :: rest =>
    let found1 := if t ∈ found then found else t :: found
    let p := step found1 visited t
    reachTargets step p.1 p.2 rest

/-- The recursive traversal (`findDownstream` / `findUpstream`), with the
edge orientation given by the projections `f` (side matched against the
current id) and `g` (side added to the result and recursed into).  `fuel`
bounds the recursion depth; the top-level wrappers pass
`edges.length + 2`, which never runs out. -/
def reachVisit (f g : FlowEdge → String) (edges : List FlowEdge) :
    Nat → List String → List String → String → List String × List String
  | 0, found, visited, _ => (found, visited)
  | fuel + 1, found, visited, serviceId =>
    if serviceId ∈ visited then (found, visited)
    else
      reachTargets (fun fo vi t => reachVisit f g edges fuel fo vi t)
        found (serviceId :: visited)
        ((edges.filter (fun e => f e == serviceId)).map g)

/-- Embeds `get_downstream_dependents (target_service_id, nodes, edges)`:
run the traversal following edges source-to-target, then keep the nodes
whose id ended up in the `dependents` set. -/
def get_downstream_dependents (target_service_id : String)
    (nodes : List FlowNode) (edges : List FlowEdge) : List FlowNode :=
  let result := reachVisit (fun e => e.source) (fun e => e.target) edges
    (edges.length + 2) [] [] target_service_id
  nodes.filter (fun node => result.1.contains node.id)

/-- Embeds `get_upstream_dependencies (target_service_id, nodes, edges)`:
same traversal with edges followed target-to-source. -/
def get_upstream_dependencies (target_service_id : String)
    (nodes : List FlowNode) (edges : List FlowEdge) : List FlowNode :=
  let result := reachVisit (fun e => e.target) (fun e => e.source) edges
    (edges.length + 2) [] [] target_service_id
  nodes.filter (fun node => result.1.contains node.id)

/-- One edge step of the relation the traversal explores: there is an edge
`e` whose `f` side is `a` and whose `g` side is `b`. -/
def StepG (f g : FlowEdge → String) (edges : List FlowEdge) (a b : String) : Prop :=
  ∃ e, e ∈ edges ∧ f e = a ∧ g e = b

/-- Downstream step relation: an edge from `a` to `b`. -/
def DownStep (edges : List FlowEdge) : String → String → Prop :=
  StepG (fun e => e.source) (fun e => e.target) edges

/-- Upstream step relation: an edge from `b` to `a`. -/
def UpStep (edges : List FlowEdge) : String → String → Prop :=
  StepG (fun e => e.target) (fun e => e.source) edges

/-- Number of edge endpoints (under projection `g`) not yet visited.  This
is the quantity that shrinks when the traversal visits a new endpoint and
justifies the fuel bound. -/
def targetCount (g : FlowEdge → String) (edges : List FlowEdge) (visited : List String) : Nat :=
  ((edges.map g).toFinset \ visited.toFinset).card

/-- A node `w` is fully expanded in a traversal state: every edge leaving
`w` (under the orientation `f`, `g`) has its endpoint recorded both in the
result set and in the visited set. -/
def ReachClosed (f g : FlowEdge → String) (edges : List FlowEdge)
    (found visited : List String) (w : String) : Prop :=
  ∀ e, e ∈ edges → f e = w → g e ∈ found ∧ g e ∈ visited


/- ================================================================
   Section 2: outage-affected ids.

   Source: getElementLayout (src/unnamed/part_001) lines 84-102.  The
   layout function first converts the service nodes/relations to react-flow
   nodes/edges (tempNodes / tempEdges), then for each service currently in
   outage adds the service itself and all of its downstream dependents to
   the `outageAffectedIds` set.
   ================================================================ -/

/-- A service node as delivered by the topology fetch: identity, label and
free-form category.  The category is optional because every consumer
guards it with a fallback. -/
structure ServiceNode where
  service_id : String
  label : String
  service_type : Option String
deriving DecidableEq

/-- A directed service relation: `relation_id`, `source`, `target`. -/
structure ServiceRelation where
  relation_id : String
  source : String
  target : String
deriving DecidableEq

/-- The `tempNodes` conversion inside getElementLayout: one react-flow
node per service, keyed by `service_id`. -/
def tempNodes (serviceNodes : List ServiceNode) : List FlowNode :=
  serviceNodes.map (fun i => ⟨i.service_id⟩)

/-- The `tempEdges` conversion inside getElementLayout. -/
def tempEdges (serviceEdges : List ServiceRelation) : List FlowEdge :=
  serviceEdges.map (fun i => ⟨i.relation_id, i.source, i.target⟩)

/-- JS `Set.add` with insertion order preserved: append if absent. -/
def setAdd (l : List String) (x : String) : List String :=
  if x ∈ l then l else l ++ [x]

/-- Embeds the `outageAffectedIds` computation of getElementLayout: for
each outage root, add the root itself and the id of every node returned by
`get_downstream_dependents` for that root. -/
def outageAffectedIds (serviceNodes : List ServiceNode) (serviceEdges : List ServiceRelation)
    (outageService : List String) : List String :=
  outageService.foldl (fun acc outageServiceId =>
    let acc1 := setAdd acc outageServiceId
    (get_downstream_dependents outageServiceId (tempNodes serviceNodes)
        (tempEdges serviceEdges)).foldl (fun a dep => setAdd a dep.id) acc1) []

/- ================================================================
   Section 3: per-group status tally.

   Source: `statusSummaryByType` in
   src/frontend/src/components/ServiceList.tsx lines 398-435.  For every
   service node the group key is `service_type ?? 'Unknown'`; the bucket is
   selected by a switch over
   `statusMap[service.service_id]?.last_status_code ?? null`.
   ================================================================ -/

/-- The slice of a ServiceStatusSummary record that the tally reads. -/
structure ServiceStatusSummary where
  last_status_code : Option Int
deriving DecidableEq

/-- The per-group counters of the tally. -/
structure StatusSummaryCounts where
  ok : Nat
  degraded : Nat
  failed : Nat
  starting : Nat
  stopped : Nat
  unknown : Nat
  others : Nat
  total : Nat
deriving DecidableEq

/-- The all-zero counter record a fresh group starts from. -/
def zeroCounts : StatusSummaryCounts := ⟨0, 0, 0, 0, 0, 0, 0, 0⟩

/-- One iteration of the switch in statusSummaryByType: bump `total`, then
bump the single bucket selected by the status code (`5`, `null` and
`undefined` all fall into `unknown`; any other value lands in `others`). -/
def bumpCounts (c : StatusSummaryCounts) (statusCode : Option Int) : StatusSummaryCounts :=
  let c1 : StatusSummaryCounts := { c with total := c.total + 1 }
  if statusCode = some 0 then { c1 with ok := c1.ok + 1 }
  else if statusCode = some 1 then { c1 with degraded := c1.degraded + 1 }
  else if statusCode = some 2 then { c1 with failed := c1.failed + 1 }
  else if statusCode = some 3 then { c1 with starting := c1.starting + 1 }
  else if statusCode = some 4 then { c1 with stopped := c1.stopped + 1 }
  else if statusCode = some 5 ∨ statusCode = none then { c1 with unknown := c1.unknown + 1 }
  else { c1 with others := c1.others + 1 }

/-- The group key of a node: `service.service_type ?? 'Unknown'`. -/
def serviceGroupKey (s : ServiceNode) : String := s.service_type.getD "Unknown"

/-- The status code the tally reads for a node:
`statusMap[service_id]?.last_status_code ?? null`. -/
def lastStatusCodeOf (statusMap : String → Option ServiceStatusSummary)
    (serviceId : String) : Option Int :=
  (statusMap serviceId).bind ServiceStatusSummary.last_status_code

/-- Assignment `summary[type] = counts` on the record object: replace the
existing entry for the key or append a fresh one (JS objects keep
insertion order). -/
def setSummaryEntry : List (String × StatusSummaryCounts) → String → StatusSummaryCounts →
    List (String × StatusSummaryCounts)
  | [], key, c => [(key, c)]
  | (k, v) :: rest, key, c =>
    if k == key then (k, c) :: rest else (k, v) :: setSummaryEntry rest key c

/-- The loop body of statusSummaryByType: fetch (or initialise) the
counters of the node group, then bump them according to the status code. -/
def tallyService (statusMap : String → Option ServiceStatusSummary)
    (summary : List (String × StatusSummaryCounts)) (service : ServiceNode) :
    List (String × StatusSummaryCounts) :=
  let type := serviceGroupKey service
  let counts := (summary.lookup type).getD zeroCounts
  setSummaryEntry summary type
    (bumpCounts counts (lastStatusCodeOf statusMap service.service_id))

/-- Embeds `statusSummaryByType` (ServiceList.tsx lines 398-435). -/
def statusSummaryByType (services : List ServiceNode)
    (statusMap : String → Option ServiceStatusSummary) :
    List (String × StatusSummaryCounts) :=
  services.foldl (tallyService statusMap) []

/-- Specification-side refold of a single group: the counters obtained by
bumping `c0` once per member, in order.  `statusSummaryByType` is proven
to agree with this on every group. -/
def groupTally (statusMap : String → Option ServiceStatusSummary)
    (c0 : StatusSummaryCounts) (members : List ServiceNode) : StatusSummaryCounts :=
  members.foldl (fun c s => bumpCounts c (lastStatusCodeOf statusMap s.service_id)) c0

/- ================================================================
   Section 4: the StatusManager class (statusManager.tsx).

   This is a value-level model of the manager state.  JS objects holding
   the status records are modelled by value; the one place where object
   identity matters (the shallow copy in getStatusMap) gets a dedicated
   reference-level model in Section 5.

   Timers: `setInterval(cb, ms)` installed at time `now` is modelled by the
   pair `due = now + ms`, `intervalMs = ms` (its first firing time and
   period).  The anonymous reconnect `setTimeout` of the WebSocket onclose
   handler is NOT stored in any field of the class - exactly as in the
   source - so it lives in the surrounding runtime state (`WsRuntime`) and
   `cleanup` cannot touch it.
   ================================================================ -/

/-- A ServiceStatus record.  The optional float-valued metric fields
(response_time_ms, cpu_usage, memory_usage, details) are omitted: no
claimed property reads them. -/
structure ServiceStatus where
  service_id : String
  status_code : Int
  message : String
  last_check : String
deriving DecidableEq

/-- A subscribed status-update callback: an identity plus a behaviour that
either returns normally or throws (modelled by `Except.error`). -/
structure StatusCallback where
  id : Nat
  run : List (String × ServiceStatus) → Except String Unit

/-- A subscribed error callback. -/
structure ErrorCallback where
  id : Nat
  run : String → Except String Unit

/-- A running `setInterval` handle: first due time and period. -/
structure IntervalTimer where
  due : Nat
  intervalMs : Nat
deriving DecidableEq

/-- WebSocket readyState as far as the reconnect guard reads it. -/
inductive WsReadyState
  | connecting
  | opened
  | closed
deriving DecidableEq

/-- The mutable fields of a StatusManager instance. -/
structure MState where
  serviceIds : List String
  statusMap : List (String × ServiceStatus)
  sseConnection : Option Unit
  wsConnection : Option WsReadyState
  pollInterval : Option IntervalTimer
  fallbackPollIntervalMs : Nat
  statusUpdateCallbacks : List StatusCallback
  errorCallbacks : List ErrorCallback

/-- The record of one notification fan-out: for every subscribed callback,
its id, the snapshot it was handed, and its outcome (normal return or
caught exception). -/
abbrev NotifyTrace := List (Nat × List (String × ServiceStatus) × Except String Unit)

/-- Assignment `this.statusMap[serviceId] = status` on a JS object:
replace the value of an existing key or append a new binding. -/
def objSet : List (String × ServiceStatus) → String → ServiceStatus →
    List (String × ServiceStatus)
  | [], key, value => [(key, value)]
  | (k, v) :: rest, key, value =>
    if k == key then (k, value) :: rest else (k, v) :: objSet rest key value

/-- Embeds `getStatusMap`: `return { ...this.statusMap }`.  At the value
level the spread copy has the same contents as the store; the aliasing of
the contained record objects is studied in Section 5. -/
def getStatusMap (st : MState) : List (String × ServiceStatus) :=
  st.statusMap

/-- Embeds `getServiceStatus`: `this.statusMap[serviceId] || null`. -/
def getServiceStatus (st : MState) (serviceId : String) : Option ServiceStatus :=
  st.statusMap.lookup serviceId

/-- Embeds `notifyStatusUpdate`: take one snapshot of the store, then
`forEach` over the callback set with a per-callback try/catch.  Because
every exception is caught locally, every subscribed callback is invoked
with that same snapshot; the trace records each invocation and its
outcome. -/
def notifyStatusUpdate (st : MState) : NotifyTrace :=
  let statusMap := getStatusMap st
  st.statusUpdateCallbacks.map (fun callback => (callback.id, statusMap, callback.run statusMap))

/-- Embeds `notifyError`: fan-out of an error to the error callbacks, each
invocation guarded by its own try/catch. -/
def notifyError (st : MState) (error : String) : List (Nat × String × Except String Unit) :=
  st.errorCallbacks.map (fun callback => (callback.id, error, callback.run error))

/-- Embeds `updateServiceStatus`: write the record into the status map,
then notify the subscribers.  Returns the new state and the fan-out
trace. -/
def updateServiceStatus (st : MState) (serviceId : String) (status : ServiceStatus) :
    MState × NotifyTrace :=
  let st1 : MState := { st with statusMap := objSet st.statusMap serviceId status }
  (st1, notifyStatusUpdate st1)

/-- Embeds the resolution of a `fetchAllStatus` batch response: for each
tracked service id, if the response map has a record for it, apply it via
`updateServiceStatus` (which notifies once per applied record).  Returns
the final state and the list of fan-out traces, one per applied record. -/
def fetchAllStatusResolve (st : MState) (resp : String → Option ServiceStatus) :
    MState × List NotifyTrace :=
  st.serviceIds.foldl (fun acc serviceId =>
    match resp serviceId with
    | some status =>
      let r := updateServiceStatus acc.1 serviceId status
      (r.1, acc.2 ++ [r.2])
    | none => acc) (st, [])

/-- The loop of `fetchAllStatusResolve` over an arbitrary id list and
accumulator; `fetchAllStatusResolve st resp` is definitionally
`fetchFold resp st.serviceIds (st, [])`. -/
def fetchFold (resp : String → Option ServiceStatus) (ids : List String)
    (init : MState × List NotifyTrace) : MState × List NotifyTrace :=
  ids.foldl (fun acc serviceId =>
    match resp serviceId with
    | some status =>
      let r := updateServiceStatus acc.1 serviceId status
      (r.1, acc.2 ++ [r.2])
    | none => acc) init

/-- Embeds the success path of a single-service `fetchServiceStatus`
resolution. -/
def fetchServiceStatusResolve (st : MState) (serviceId : String) (status : ServiceStatus) :
    MState × NotifyTrace :=
  updateServiceStatus st serviceId status

/-- Embeds `cleanup`: close and null both channels, clear the poll
interval, clear both callback sets.  Note that no reconnect timeout is
cancelled - the class never stores one. -/
def cleanup (st : MState) : MState :=
  { st with
    sseConnection := none
    wsConnection := none
    pollInterval := none
    statusUpdateCallbacks := []
    errorCallbacks := [] }

/-- Embeds `startFallbackPolling` at current time `now`:
`setInterval(fetchAllStatus, FALLBACK_POLL_INTERVAL)`. -/
def startFallbackPolling (st : MState) (now : Nat) : MState :=
  { st with pollInterval := some ⟨now + st.fallbackPollIntervalMs, st.fallbackPollIntervalMs⟩ }

/-- Embeds `resetFallbackPolling`: if a poll interval is running, clear it
and restart it at the base interval. -/
def resetFallbackPolling (st : MState) (now : Nat) : MState :=
  if st.pollInterval.isSome then startFallbackPolling st now else st

/-- Embeds `accelerateFallbackPolling`: if a poll interval is running,
clear it and poll every 5000 ms instead. -/
def accelerateFallbackPolling (st : MState) (now : Nat) : MState :=
  if st.pollInterval.isSome then { st with pollInterval := some ⟨now + 5000, 5000⟩ } else st

/-- Embeds the SSE `onmessage` handler on a successfully parsed status
update: if the service is tracked, apply the record and reset the poll
timer to the base interval. -/
def handleSSEMessage (st : MState) (now : Nat) (statusUpdate : ServiceStatus) :
    MState × Option NotifyTrace :=
  if st.serviceIds.contains statusUpdate.service_id then
    let r := updateServiceStatus st statusUpdate.service_id statusUpdate
    (resetFallbackPolling r.1 now, some r.2)
  else (st, none)

/-- Embeds the SSE `onerror` handler: log, then accelerate the fallback
polling. -/
def handleSSEError (st : MState) (now : Nat) : MState :=
  accelerateFallbackPolling st now

/-- A manager instance together with the runtime facts the class does not
track: the current time and the due times of pending reconnect timeouts
scheduled by `onclose`. -/
structure WsRuntime where
  mgr : MState
  now : Nat
  pendingReconnects : List Nat

/-- Embeds `establishWebSocketConnection`: `new WebSocket(...)` puts a
fresh connecting socket into `this.wsConnection`. -/
def establishWebSocketConnection (st : MState) : MState :=
  { st with wsConnection := some WsReadyState.connecting }

/-- Embeds the WebSocket `onclose` handler: accelerate the fallback
polling and schedule one anonymous reconnect timeout 5000 ms out.  The
timeout handle is not stored on the class. -/
def handleWsClose (rt : WsRuntime) : WsRuntime :=
  { rt with
    mgr := accelerateFallbackPolling rt.mgr rt.now
    pendingReconnects := rt.pendingReconnects ++ [rt.now + 5000] }

/-- Embeds the firing of a pending reconnect timeout at time `t`: if the
socket is gone or closed, establish a new WebSocket connection. -/
def fireReconnect (rt : WsRuntime) (t : Nat) : WsRuntime :=
  { rt with
    now := t
    pendingReconnects := rt.pendingReconnects.erase t
    mgr :=
      if rt.mgr.wsConnection = none ∨ rt.mgr.wsConnection = some WsReadyState.closed then
        establishWebSocketConnection rt.mgr
      else rt.mgr }

/-- `cleanup` lifted to the runtime state: the class clears its own
fields; the pending reconnect timeouts are untouched because the class
holds no handle to them. -/
def cleanupRuntime (rt : WsRuntime) : WsRuntime :=
  { rt with mgr := cleanup rt.mgr }

/- ================================================================
   Section 5: reference-level model of the snapshot copy.

   Source: `getStatusMap` (statusManager.tsx lines 118-120),
   `return { ...this.statusMap }`.  The spread copies the top-level object
   (the key bindings) but not the ServiceStatus record objects behind the
   keys.  To make that observable, records live in an explicit heap and
   the status map binds keys to references.
   ================================================================ -/

namespace StatusManagerHeap

/-- The mutable fields of a ServiceStatus record object. -/
structure ServiceStatusObj where
  status_code : Int
  message : String
  last_check : String
deriving DecidableEq

/-- A heap of record objects, addressed by reference. -/
structure Heap where
  recs : Nat → ServiceStatusObj

/-- The manager object: its status map binds service ids to record
references. -/
structure ManagerObj where
  statusMap : List (String × Nat)

/-- Embeds `getStatusMap` at the reference level: the spread produces a
fresh top-level mapping carrying the same key-to-reference bindings; the
record objects themselves are shared with the store. -/
def getStatusMap (m : ManagerObj) : List (String × Nat) :=
  m.statusMap

/-- Mutating one field of the record object behind reference `ref` (for
example `snapshot[id].message = ...`). -/
def writeField (h : Heap) (ref : Nat) (mutate : ServiceStatusObj → ServiceStatusObj) : Heap :=
  ⟨fun r => if r = ref then mutate (h.recs r) else h.recs r⟩

/-- A store lookup as the manager observes it: follow the binding to the
heap. -/
def getServiceStatus (m : ManagerObj) (h : Heap) (serviceId : String) :
    Option ServiceStatusObj :=
  (m.statusMap.lookup serviceId).map h.recs

end StatusManagerHeap

/- ================================================================
   Section 6: concrete inputs used by counterexamples and witnesses.
   ================================================================ -/

/-- Two-node cyclic graph A to B, B to A (nodes). -/
def cycNodes : List FlowNode := [⟨"A"⟩, ⟨"B"⟩]

/-- Two-node cyclic graph A to B, B to A (edges). -/
def cycEdges : List FlowEdge := [⟨"e1", "A", "B"⟩, ⟨"e2", "B", "A"⟩]

/-- Linear chain A to B to C (nodes). -/
def chainNodes : List FlowNode := [⟨"A"⟩, ⟨"B"⟩, ⟨"C"⟩]

/-- Linear chain A to B to C (edges). -/
def chainEdges : List FlowEdge := [⟨"e1", "A", "B"⟩, ⟨"e2", "B", "C"⟩]

/-- Linear chain A to B to C as service nodes. -/
def chainSvcNodes : List ServiceNode :=
  [⟨"A", "svc A", some "Platform"⟩, ⟨"B", "svc B", some "Platform"⟩,
   ⟨"C", "svc C", some "Pipeline"⟩]

/-- Linear chain A to B to C as service relations. -/
def chainSvcEdges : List ServiceRelation :=
  [⟨"e1", "A", "B"⟩, ⟨"e2", "B", "C"⟩]

/-- A sample applied record for service a. -/
def recA : ServiceStatus := ⟨"a", 0, "ok", "2024-01-01T00:00:00Z"⟩

/-- A sample applied record for service b. -/
def recB : ServiceStatus := ⟨"b", 2, "down", "2024-01-01T00:00:00Z"⟩

/-- A subscriber that returns normally. -/
def subscriberOk : StatusCallback := ⟨0, fun _ => Except.ok ()⟩

/-- A subscriber that throws on every invocation. -/
def subscriberThrowing : StatusCallback := ⟨1, fun _ => Except.error "subscriber failure"⟩

/-- Manager state tracking services a and b with one subscriber, used by
the batch-notification counterexample. -/
def mstBatch : MState :=
  ⟨["a", "b"], [], none, none, none, 30000, [subscriberOk], []⟩

/-- Batch response carrying records for both tracked services. -/
def respBatch : String → Option ServiceStatus := fun serviceId =>
  if serviceId == "a" then some recA
  else if serviceId == "b" then some recB
  else none

/-- The record stored before disposal in the dispose-then-late-resolve
scenario. -/
def oldRec : ServiceStatus := ⟨"svc", 0, "ok", "2024-01-01T00:00:00Z"⟩

/-- The record delivered by the late fetch resolution. -/
def newRec : ServiceStatus := ⟨"svc", 2, "down", "2024-01-01T00:05:00Z"⟩

/-- Manager state with one tracked service and a running poller, used by
the dispose scenarios. -/
def mstDispose : MState :=
  ⟨["svc"], [("svc", oldRec)], none, some WsReadyState.opened,
    some ⟨30000, 30000⟩, 30000, [subscriberOk], []⟩

/-- Late batch response for the dispose-then-late-resolve scenario. -/
def respDispose : String → Option ServiceStatus := fun serviceId =>
  if serviceId == "svc" then some newRec else none

/-- Runtime state at the moment the WebSocket close event fires: socket
reports CLOSED, poller running, clock at 0. -/
def rtClose : WsRuntime :=
  ⟨{ mstDispose with wsConnection := some WsReadyState.closed }, 0, []⟩

/-- Manager state with a running base-interval poller, used by the polling
reschedule witness. -/
def mstPolling : MState :=
  ⟨["a"], [], some (), none, some ⟨30000, 30000⟩, 30000, [subscriberOk], []⟩

/-- Heap for the snapshot-aliasing counterexample: every reference holds
an OK record. -/
def heapSnap : StatusManagerHeap.Heap :=
  ⟨fun _ => ⟨0, "ok", "2024-01-01T00:00:00Z"⟩⟩

/-- Manager object binding service a to reference 0. -/
def mgrSnap : StatusManagerHeap.ManagerObj := ⟨[("a", 0)]⟩

/-- The field mutation applied through the snapshot. -/
def mutateMessage : StatusManagerHeap.ServiceStatusObj → StatusManagerHeap.ServiceStatusObj :=
  fun obj => { obj with message := "mutated" }

/-- Status summaries for the tally witness: service A is OK, service B has
no record, service C reports the out-of-range code 9. -/
def smapW : String → Option ServiceStatusSummary := fun serviceId =>
  if serviceId == "A" then some ⟨some 0⟩
  else if serviceId == "B" then none
  else some ⟨some 9⟩

/- ================================================================
   Lemmas and theorems.
   ================================================================ -/

lemma targetCount_mono (g : FlowEdge → String) (edges : List FlowEdge)
    {visited visited' : List String} (h : ∀ a, a ∈ visited → a ∈ visited') :
    targetCount g edges visited' ≤ targetCount g edges visited := by
  apply Finset.card_le_card
  apply Finset.sdiff_subset_sdiff (Finset.Subset.refl _)
  intro a ha
  rw [List.mem_toFinset] at ha ⊢
  exact h a ha

lemma targetCount_cons_lt (g : FlowEdge → String) (edges : List FlowEdge)
    {visited : List String} {x : String}
    (hx : x ∈ edges.map g) (hnx : x ∉ visited) :
    targetCount g edges (x :: visited) < targetCount g edges visited := by
  unfold targetCount
  rw [List.toFinset_cons, Finset.sdiff_insert]
  apply Finset.card_erase_lt_of_mem
  rw [Finset.mem_sdiff, List.mem_toFinset, List.mem_toFinset]
  exact ⟨hx, hnx⟩

lemma ReachClosed.mono {f g : FlowEdge → String} {edges : List FlowEdge}
    {found visited found' visited' : List String} {w : String}
    (h : ReachClosed f g edges found visited w)
    (hf : ∀ a, a ∈ found → a ∈ found') (hv : ∀ a, a ∈ visited → a ∈ visited') :
    ReachClosed f g edges found' visited' w := fun e he hfe =>
  ⟨hf _ (h e he hfe).1, hv _ (h e he hfe).2⟩

/-- Main invariant of the fuelled traversal.  Provided the fuel dominates
the number of unvisited endpoints (the disjunctive hypothesis), the run
only grows the two sets, visits its argument, and leaves every newly
visited node fully expanded in the final state. -/
theorem reachVisit_invariant (f g : FlowEdge → String) (edges : List FlowEdge) :
    ∀ (fuel : Nat) (found visited : List String) (serviceId : String),
      (serviceId ∈ visited ∨
        (serviceId ∈ edges.map g ∧ targetCount g edges visited < fuel) ∨
        targetCount g edges visited + 1 < fuel) →
      (∀ a, a ∈ found → a ∈ (reachVisit f g edges fuel found visited serviceId).1) ∧
      (∀ a, a ∈ visited → a ∈ (reachVisit f g edges fuel found visited serviceId).2) ∧
      serviceId ∈ (reachVisit f g edges fuel found visited serviceId).2 ∧
      (∀ w, w ∈ (reachVisit f g edges fuel found visited serviceId).2 → w ∉ visited →
        ReachClosed f g edges (reachVisit f g edges fuel found visited serviceId).1
          (reachVisit f g edges fuel found visited serviceId).2 w) := by
  intro fuel
  induction fuel with
  | zero =>
    intro found visited serviceId hyp
    have hmem : serviceId ∈ visited := by
      rcases hyp with h | ⟨_, h⟩ | h
      · exact h
      · exact absurd h (Nat.not_lt_zero _)
      · exact absurd h (Nat.not_lt_zero _)
    exact ⟨fun a ha => ha, fun a ha => ha, hmem, fun w hw hnw => absurd hw hnw⟩
  | succ fuel ih =>
    have hB : ∀ (ids : List String), ∀ (found visited : List String),
        (∀ t, t ∈ ids → t ∈ edges.map g) →
        targetCount g edges visited < fuel →
        (∀ a, a ∈ found →
          a ∈ (reachTargets (fun fo vi t => reachVisit f g edges fuel fo vi t) found visited ids).1) ∧
        (∀ a, a ∈ visited →
          a ∈ (reachTargets (fun fo vi t => reachVisit f g edges fuel fo vi t) found visited ids).2) ∧
        (∀ t, t ∈ ids →
          t ∈ (reachTargets (fun fo vi t => reachVisit f g edges fuel fo vi t) found visited ids).1 ∧
          t ∈ (reachTargets (fun fo vi t => reachVisit f g edges fuel fo vi t) found visited ids).2) ∧
        (∀ w, w ∈ (reachTargets (fun fo vi t => reachVisit f g edges fuel fo vi t) found visited ids).2 →
          w ∉ visited →
          ReachClosed f g edges
            (reachTargets (fun fo vi t => reachVisit f g edges fuel fo vi t) found visited ids).1
            (reachTargets (fun fo vi t => reachVisit f g edges fuel fo vi t) found visited ids).2 w) := by
      intro ids
      induction ids with
      | nil =>
        intro found visited _ _
        exact ⟨fun a ha => ha, fun a ha => ha, fun t ht => absurd ht (List.not_mem_nil t),
          fun w hw hnw => absurd hw hnw⟩
      | cons t rest ihT =>
        intro found visited hts hf
        have htg : t ∈ edges.map g := hts t (List.mem_cons_self t rest)
        have hA := ih (if t ∈ found then found else t :: found) visited t
          (Or.inr (Or.inl ⟨htg, hf⟩))
        obtain ⟨hA1, hA2, hA3, hA4⟩ := hA
        have hf2 : targetCount g edges
            (reachVisit f g edges fuel (if t ∈ found then found else t :: found) visited t).2 < fuel :=
          lt_of_le_of_lt (targetCount_mono g edges hA2) hf
        have hT := ihT
          (reachVisit f g edges fuel (if t ∈ found then found else t :: found) visited t).1
          (reachVisit f g edges fuel (if t ∈ found then found else t :: found) visited t).2
          (fun t' ht' => hts t' (List.mem_cons_of_mem t ht')) hf2
        obtain ⟨hT1, hT2, hT3, hT4⟩ := hT
        simp only [reachTargets]
        refine ⟨?_, ?_, ?_, ?_⟩
        · intro a ha
          apply hT1
          apply hA1
          by_cases hc : t ∈ found
          · simpa [hc] using ha
          · simp [hc, ha]
        · intro a ha
          exact hT2 a (hA2 a ha)
        · intro t' ht'
          rcases List.mem_cons.mp ht' with rfl | ht'
          · constructor
            · apply hT1
              apply hA1
              by_cases hc : t' ∈ found
              · simp [hc]
              · simp [hc]
            · exact hT2 _ hA3
          · exact hT3 t' ht'
        · intro w hw hnw
          by_cases hw2 : w ∈ (reachVisit f g edges fuel (if t ∈ found then found else t :: found) visited t).2
          · exact (hA4 w hw2 hnw).mono hT1 hT2
          · exact hT4 w hw hw2
    intro found visited serviceId hyp
    by_cases hmem : serviceId ∈ visited
    · simp only [reachVisit, if_pos hmem]
      exact ⟨fun a ha => ha, fun a ha => ha, hmem, fun w hw hnw => absurd hw hnw⟩
    · have hcnt : targetCount g edges (serviceId :: visited) < fuel := by
        rcases hyp with h | ⟨hsg, hlt⟩ | hlt
        · exact absurd h hmem
        · have := targetCount_cons_lt g edges hsg hmem
          omega
        · have : targetCount g edges (serviceId :: visited) ≤ targetCount g edges visited :=
            targetCount_mono g edges (fun a ha => List.mem_cons_of_mem _ ha)
          omega
      have hts : ∀ t, t ∈ (edges.filter (fun e => f e == serviceId)).map g → t ∈ edges.map g := by
        intro t ht
        rcases List.mem_map.mp ht with ⟨e, he, rfl⟩
        exact List.mem_map.mpr ⟨e, (List.mem_filter.mp he).1, rfl⟩
      have hE := hB ((edges.filter (fun e => f e == serviceId)).map g)
        found (serviceId :: visited) hts hcnt
      obtain ⟨hE1, hE2, hE3, hE4⟩ := hE
      simp only [reachVisit, if_neg hmem]
      refine ⟨hE1, ?_, ?_, ?_⟩
      · intro a ha
        exact hE2 a (List.mem_cons_of_mem _ ha)
      · exact hE2 serviceId (List.mem_cons_self _ _)
      · intro w hw hnw
        by_cases hws : w = serviceId
        · subst hws
          intro e he hfe
          have hgmem : g e ∈ (edges.filter (fun e => f e == w)).map g :=
            List.mem_map.mpr ⟨e, List.mem_filter.mpr ⟨he, by simp [hfe]⟩, rfl⟩
          exact hE3 (g e) hgmem
        · have hw2 : w ∉ serviceId :: visited := by
            simp [hws, hnw]
          exact hE4 w hw hw2

/-- Soundness scheme for the traversal: any pair of predicates closed
under one edge step is preserved by the run, whatever the fuel. -/
theorem reachVisit_sound (f g : FlowEdge → String) (edges : List FlowEdge)
    (good1 good0 : String → Prop)
    (hcl : ∀ w, good0 w → ∀ e, e ∈ edges → f e = w → good1 (g e) ∧ good0 (g e)) :
    ∀ (fuel : Nat) (found visited : List String) (serviceId : String),
      (∀ a, a ∈ found → good1 a) → (∀ a, a ∈ visited → good0 a) → good0 serviceId →
      (∀ a, a ∈ (reachVisit f g edges fuel found visited serviceId).1 → good1 a) ∧
      (∀ a, a ∈ (reachVisit f g edges fuel found visited serviceId).2 → good0 a) := by
  intro fuel
  induction fuel with
  | zero =>
    intro found visited serviceId h1 h0 _
    exact ⟨h1, h0⟩
  | succ fuel ih =>
    have hB : ∀ (ids : List String), ∀ (found visited : List String),
        (∀ t, t ∈ ids → good1 t ∧ good0 t) →
        (∀ a, a ∈ found → good1 a) → (∀ a, a ∈ visited → good0 a) →
        (∀ a, a ∈ (reachTargets (fun fo vi t => reachVisit f g edges fuel fo vi t) found visited ids).1 → good1 a) ∧
        (∀ a, a ∈ (reachTargets (fun fo vi t => reachVisit f g edges fuel fo vi t) found visited ids).2 → good0 a) := by
      intro ids
      induction ids with
      | nil =>
        intro found visited _ h1 h0
        exact ⟨h1, h0⟩
      | cons t rest ihT =>
        intro found visited hts h1 h0
        have h1' : ∀ a, a ∈ (if t ∈ found then found else t :: found) → good1 a := by
          intro a ha
          by_cases hc : t ∈ found
          · exact h1 a (by simpa [hc] using ha)
          · rcases List.mem_cons.mp (by simpa [hc] using ha) with rfl | ha'
            · exact (hts a (List.mem_cons_self _ _)).1
            · exact h1 a ha'
        have hA := ih (if t ∈ found then found else t :: found) visited t h1' h0
          (hts t (List.mem_cons_self _ _)).2
        have hT := ihT
          (reachVisit f g edges fuel (if t ∈ found then found else t :: found) visited t).1
          (reachVisit f g edges fuel (if t ∈ found then found else t :: found) visited t).2
          (fun t' ht' => hts t' (List.mem_cons_of_mem t ht')) hA.1 hA.2
        simpa only [reachTargets] using hT
    intro found visited serviceId h1 h0 hid
    by_cases hmem : serviceId ∈ visited
    · simp only [reachVisit, if_pos hmem]
      exact ⟨h1, h0⟩
    · have hts : ∀ t, t ∈ (edges.filter (fun e => f e == serviceId)).map g →
          good1 t ∧ good0 t := by
        intro t ht
        rcases List.mem_map.mp ht with ⟨e, he, rfl⟩
        have hef := List.mem_filter.mp he
        exact hcl serviceId hid e hef.1 (by simpa using hef.2)
      have h0' : ∀ a, a ∈ serviceId :: visited → good0 a := by
        intro a ha
        rcases List.mem_cons.mp ha with rfl | ha'
        · exact hid
        · exact h0 a ha'
      have hE := hB ((edges.filter (fun e => f e == serviceId)).map g)
        found (serviceId :: visited) hts h1 h0'
      simpa only [reachVisit, if_neg hmem] using hE

/-- Characterisation of the traversal output: with the fuel used by the
wrappers, a service id lands in the result set exactly when it is
reachable from the origin by a nonempty chain of edges. -/
theorem reach_found_iff (f g : FlowEdge → String) (edges : List FlowEdge) (x z : String) :
    z ∈ (reachVisit f g edges (edges.length + 2) [] [] x).1 ↔
      Relation.TransGen (StepG f g edges) x z := by
  constructor
  · intro hz
    have hs := reachVisit_sound f g edges
      (fun b => Relation.TransGen (StepG f g edges) x b)
      (fun b => Relation.ReflTransGen (StepG f g edges) x b)
      (fun w hw e he hfe =>
        ⟨Relation.TransGen.tail' hw ⟨e, he, hfe, rfl⟩,
         Relation.ReflTransGen.tail hw ⟨e, he, hfe, rfl⟩⟩)
      (edges.length + 2) [] [] x
      (fun a ha => absurd ha (List.not_mem_nil a))
      (fun a ha => absurd ha (List.not_mem_nil a))
      Relation.ReflTransGen.refl
    exact hs.1 z hz
  · intro hTG
    have hcount : targetCount g edges [] ≤ edges.length := by
      unfold targetCount
      rw [List.toFinset_nil, Finset.sdiff_empty]
      calc (edges.map g).toFinset.card ≤ (edges.map g).length := List.toFinset_card_le _
        _ = edges.length := List.length_map _ _
    obtain ⟨_, _, hxv, hclosed⟩ := reachVisit_invariant f g edges (edges.length + 2) [] [] x
      (Or.inr (Or.inr (by omega)))
    have hvis : ∀ w, Relation.ReflTransGen (StepG f g edges) x w →
        w ∈ (reachVisit f g edges (edges.length + 2) [] [] x).2 := by
      intro w h
      induction h with
      | refl => exact hxv
      | tail hab hbc ihw =>
        rcases hbc with ⟨e, he, hfe, hge⟩
        subst hge
        exact (hclosed _ ihw (List.not_mem_nil _) e he hfe).2
    induction hTG with
    | single hstep =>
      rcases hstep with ⟨e, he, hfe, hge⟩
      subst hge
      exact (hclosed x hxv (List.not_mem_nil x) e he hfe).1
    | tail hab hstep ihz =>
      rcases hstep with ⟨e, he, hfe, hge⟩
      subst hge
      exact (hclosed _ (hvis _ hab.to_reflTransGen) (List.not_mem_nil _) e he hfe).1

/-- Membership in `get_downstream_dependents`: a node is returned exactly
when it belongs to the node list and its id is reachable from the origin
by a nonempty path of edges followed source-to-target. -/
theorem mem_get_downstream_iff (x : String) (nodes : List FlowNode) (edges : List FlowEdge)
    (n : FlowNode) :
    n ∈ get_downstream_dependents x nodes edges ↔
      n ∈ nodes ∧ Relation.TransGen (DownStep edges) x n.id := by
  unfold get_downstream_dependents DownStep
  rw [List.mem_filter]
  exact and_congr_right fun _ => Iff.trans List.elem_iff (reach_found_iff _ _ edges x n.id)

/-- Membership in `get_upstream_dependencies`: same statement with the
edge orientation reversed. -/
theorem mem_get_upstream_iff (x : String) (nodes : List FlowNode) (edges : List FlowEdge)
    (n : FlowNode) :
    n ∈ get_upstream_dependencies x nodes edges ↔
      n ∈ nodes ∧ Relation.TransGen (UpStep edges) x n.id := by
  unfold get_upstream_dependencies UpStep
  rw [List.mem_filter]
  exact and_congr_right fun _ => Iff.trans List.elem_iff (reach_found_iff _ _ edges x n.id)

lemma upStep_swap (edges : List FlowEdge) : UpStep edges = Function.swap (DownStep edges) := by
  funext a b
  apply propext
  constructor
  · rintro ⟨e, he, h1, h2⟩
    exact ⟨e, he, h2, h1⟩
  · rintro ⟨e, he, h1, h2⟩
    exact ⟨e, he, h2, h1⟩

lemma upStep_cycle_iff (edges : List FlowEdge) (x : String) :
    Relation.TransGen (UpStep edges) x x ↔ Relation.TransGen (DownStep edges) x x := by
  rw [upStep_swap]
  exact Relation.transGen_swap

lemma stepG_nil (f g : FlowEdge → String) (a b : String) : ¬ StepG f g [] a b := by
  rintro ⟨e, he, -, -⟩
  exact List.not_mem_nil e he

lemma transGen_stepG_nil (f g : FlowEdge → String) (a b : String) :
    ¬ Relation.TransGen (StepG f g []) a b := by
  intro h
  induction h with
  | single hs => exact stepG_nil _ _ _ _ hs
  | tail _ hs _ => exact stepG_nil _ _ _ _ hs

lemma mem_setAdd {l : List String} {x a : String} :
    a ∈ setAdd l x ↔ a ∈ l ∨ a = x := by
  unfold setAdd
  split_ifs with h
  · constructor
    · exact Or.inl
    · rintro (ha | rfl)
      · exact ha
      · exact h
  · simp [List.mem_append]

lemma mem_foldl_setAdd_nodes (deps : List FlowNode) (acc : List String) (a : String) :
    a ∈ deps.foldl (fun a dep => setAdd a dep.id) acc ↔
      a ∈ acc ∨ ∃ n, n ∈ deps ∧ n.id = a := by
  induction deps generalizing acc with
  | nil => simp
  | cons d rest ih =>
    simp only [List.foldl_cons]
    rw [ih, mem_setAdd]
    constructor
    · rintro ((ha | rfl) | ⟨n, hn, rfl⟩)
      · exact Or.inl ha
      · exact Or.inr ⟨d, List.mem_cons_self _ _, rfl⟩
      · exact Or.inr ⟨n, List.mem_cons_of_mem _ hn, rfl⟩
    · rintro (ha | ⟨n, hn, rfl⟩)
      · exact Or.inl (Or.inl ha)
      · rcases List.mem_cons.mp hn with rfl | hn'
        · exact Or.inl (Or.inr rfl)
        · exact Or.inr ⟨n, hn', rfl⟩

lemma mem_outageAffectedIds_foldl (serviceNodes : List ServiceNode)
    (serviceEdges : List ServiceRelation) (roots : List String) (init : List String)
    (a : String) :
    a ∈ roots.foldl (fun acc outageServiceId =>
        (get_downstream_dependents outageServiceId (tempNodes serviceNodes)
            (tempEdges serviceEdges)).foldl (fun a dep => setAdd a dep.id)
          (setAdd acc outageServiceId)) init ↔
      a ∈ init ∨ ∃ r, r ∈ roots ∧ (a = r ∨
        ∃ n, n ∈ get_downstream_dependents r (tempNodes serviceNodes)
          (tempEdges serviceEdges) ∧ n.id = a) := by
  induction roots generalizing init with
  | nil => simp
  | cons r rest ih =>
    simp only [List.foldl_cons]
    rw [ih, mem_foldl_setAdd_nodes, mem_setAdd]
    constructor
    · rintro (((ha | har) | ⟨n, hn, rfl⟩) | ⟨r', hr', hrest⟩)
      · exact Or.inl ha
      · exact Or.inr ⟨r, List.mem_cons_self _ _, Or.inl har⟩
      · exact Or.inr ⟨r, List.mem_cons_self _ _, Or.inr ⟨n, hn, rfl⟩⟩
      · exact Or.inr ⟨r', List.mem_cons_of_mem _ hr', hrest⟩
    · rintro (ha | ⟨r', hr', hrest⟩)
      · exact Or.inl (Or.inl (Or.inl ha))
      · rcases List.mem_cons.mp hr' with rfl | hr''
        · rcases hrest with rfl | ⟨n, hn, rfl⟩
          · exact Or.inl (Or.inl (Or.inr rfl))
          · exact Or.inl (Or.inr ⟨n, hn, rfl⟩)
        · exact Or.inr ⟨r', hr'', hrest⟩

lemma mem_outageAffectedIds (serviceNodes : List ServiceNode)
    (serviceEdges : List ServiceRelation) (roots : List String) (a : String) :
    a ∈ outageAffectedIds serviceNodes serviceEdges roots ↔
      ∃ r, r ∈ roots ∧ (a = r ∨
        ∃ n, n ∈ get_downstream_dependents r (tempNodes serviceNodes)
          (tempEdges serviceEdges) ∧ n.id = a) := by
  unfold outageAffectedIds
  rw [mem_outageAffectedIds_foldl]
  simp

lemma lookup_cons_pair {β : Type} (k key : String) (v : β) (rest : List (String × β)) :
    ((k, v) :: rest).lookup key = if key = k then some v else rest.lookup key := by
  by_cases h : key = k
  · subst h
    rw [List.lookup, beq_self_eq_true]
    simp
  · rw [List.lookup, beq_eq_false_iff_ne.mpr h]
    simp [h]

lemma lookup_setSummaryEntry_self (m : List (String × StatusSummaryCounts)) (key : String)
    (c : StatusSummaryCounts) : (setSummaryEntry m key c).lookup key = some c := by
  induction m with
  | nil => simp [setSummaryEntry, lookup_cons_pair]
  | cons kv rest ih =>
    obtain ⟨k, v⟩ := kv
    by_cases h : k = key
    · subst h
      simp [setSummaryEntry, lookup_cons_pair]
    · rw [show setSummaryEntry ((k, v) :: rest) key c = (k, v) :: setSummaryEntry rest key c by
        simp [setSummaryEntry, h]]
      rw [lookup_cons_pair]
      simp [Ne.symm h, ih]

lemma lookup_setSummaryEntry_ne (m : List (String × StatusSummaryCounts)) (key key' : String)
    (c : StatusSummaryCounts) (h : key' ≠ key) :
    (setSummaryEntry m key c).lookup key' = m.lookup key' := by
  induction m with
  | nil => simp [setSummaryEntry, lookup_cons_pair, h]
  | cons kv rest ih =>
    obtain ⟨k, v⟩ := kv
    by_cases hk : k = key
    · subst hk
      rw [show setSummaryEntry ((k, v) :: rest) k c = (k, c) :: rest by simp [setSummaryEntry]]
      rw [lookup_cons_pair, lookup_cons_pair]
      simp [h]
    · rw [show setSummaryEntry ((k, v) :: rest) key c = (k, v) :: setSummaryEntry rest key c by
        simp [setSummaryEntry, hk]]
      rw [lookup_cons_pair, lookup_cons_pair, ih]

lemma statusSummary_fold_lookup_some (statusMap : String → Option ServiceStatusSummary)
    (services : List ServiceNode) (k : String) :
    ∀ (init : List (String × StatusSummaryCounts)) (c : StatusSummaryCounts),
      init.lookup k = some c →
      (services.foldl (tallyService statusMap) init).lookup k =
        some (groupTally statusMap c
          (services.filter (fun s => serviceGroupKey s == k))) := by
  induction services with
  | nil =>
    intro init c hc
    simpa [groupTally] using hc
  | cons s rest ih =>
    intro init c hc
    by_cases hk : serviceGroupKey s = k
    · have hstep : (tallyService statusMap init s).lookup k =
          some (bumpCounts c (lastStatusCodeOf statusMap s.service_id)) := by
        simp only [tallyService]
        rw [hk, hc]
        simpa using lookup_setSummaryEntry_self init k _
      have := ih (tallyService statusMap init s)
        (bumpCounts c (lastStatusCodeOf statusMap s.service_id)) hstep
      rw [List.foldl_cons, this]
      have hfilter : (s :: rest).filter (fun s => serviceGroupKey s == k) =
          s :: rest.filter (fun s => serviceGroupKey s == k) := by
        simp [List.filter_cons, hk]
      rw [hfilter]
      simp [groupTally]
    · have hstep : (tallyService statusMap init s).lookup k = some c := by
        simp only [tallyService]
        rw [lookup_setSummaryEntry_ne _ _ _ _ (fun hkk => hk hkk.symm)]
        exact hc
      have := ih (tallyService statusMap init s) c hstep
      rw [List.foldl_cons, this]
      have hfilter : (s :: rest).filter (fun s => serviceGroupKey s == k) =
          rest.filter (fun s => serviceGroupKey s == k) := by
        simp [List.filter_cons, hk]
      rw [hfilter]

lemma statusSummary_fold_lookup_none (statusMap : String → Option ServiceStatusSummary)
    (services : List ServiceNode) (k : String) :
    ∀ (init : List (String × StatusSummaryCounts)),
      init.lookup k = none →
      (services.foldl (tallyService statusMap) init).lookup k =
        (if (services.filter (fun s => serviceGroupKey s == k)) = [] then none
         else some (groupTally statusMap zeroCounts
           (services.filter (fun s => serviceGroupKey s == k)))) := by
  induction services with
  | nil =>
    intro init hc
    simpa using hc
  | cons s rest ih =>
    intro init hc
    by_cases hk : serviceGroupKey s = k
    · have hstep : (tallyService statusMap init s).lookup k =
          some (bumpCounts zeroCounts (lastStatusCodeOf statusMap s.service_id)) := by
        simp only [tallyService]
        rw [hk, hc]
        simpa using lookup_setSummaryEntry_self init k _
      have := statusSummary_fold_lookup_some statusMap rest k
        (tallyService statusMap init s)
        (bumpCounts zeroCounts (lastStatusCodeOf statusMap s.service_id)) hstep
      rw [List.foldl_cons, this]
      have hfilter : (s :: rest).filter (fun s => serviceGroupKey s == k) =
          s :: rest.filter (fun s => serviceGroupKey s == k) := by
        simp [List.filter_cons, hk]
      rw [hfilter]
      simp [groupTally]
    · have hstep : (tallyService statusMap init s).lookup k = none := by
        simp only [tallyService]
        rw [lookup_setSummaryEntry_ne _ _ _ _ (fun hkk => hk hkk.symm)]
        exact hc
      have := ih (tallyService statusMap init s) hstep
      rw [List.foldl_cons, this]
      have hfilter : (s :: rest).filter (fun s => serviceGroupKey s == k) =
          rest.filter (fun s => serviceGroupKey s == k) := by
        simp [List.filter_cons, hk]
      rw [hfilter]

lemma statusSummaryByType_lookup (services : List ServiceNode)
    (statusMap : String → Option ServiceStatusSummary) (k : String)
    (c : StatusSummaryCounts)
    (hc : (statusSummaryByType services statusMap).lookup k = some c) :
    c = groupTally statusMap zeroCounts
      (services.filter (fun s => serviceGroupKey s == k)) := by
  unfold statusSummaryByType at hc
  rw [statusSummary_fold_lookup_none statusMap services k [] (by simp [List.lookup])] at hc
  by_cases hemp : (services.filter (fun s => serviceGroupKey s == k)) = []
  · rw [if_pos hemp] at hc
    exact absurd hc (by simp)
  · rw [if_neg hemp] at hc
    exact (Option.some.injEq _ _ ▸ hc.symm :)

lemma bumpCounts_total (c : StatusSummaryCounts) (sc : Option Int) :
    (bumpCounts c sc).total = c.total + 1 := by
  unfold bumpCounts
  split_ifs <;> rfl

lemma bumpCounts_sum (c : StatusSummaryCounts) (sc : Option Int) :
    (bumpCounts c sc).ok + (bumpCounts c sc).degraded + (bumpCounts c sc).failed +
      (bumpCounts c sc).starting + (bumpCounts c sc).stopped + (bumpCounts c sc).unknown +
      (bumpCounts c sc).others =
    (c.ok + c.degraded + c.failed + c.starting + c.stopped + c.unknown + c.others) + 1 := by
  unfold bumpCounts
  split_ifs <;> simp <;> omega

lemma bumpCounts_ok (c : StatusSummaryCounts) (sc : Option Int) :
    (bumpCounts c sc).ok = c.ok + (if sc == some 0 then 1 else 0) := by
  unfold bumpCounts
  split_ifs <;> simp_all

lemma bumpCounts_degraded (c : StatusSummaryCounts) (sc : Option Int) :
    (bumpCounts c sc).degraded = c.degraded + (if sc == some 1 then 1 else 0) := by
  unfold bumpCounts
  split_ifs <;> simp_all

lemma bumpCounts_failed (c : StatusSummaryCounts) (sc : Option Int) :
    (bumpCounts c sc).failed = c.failed + (if sc == some 2 then 1 else 0) := by
  unfold bumpCounts
  split_ifs <;> simp_all

lemma bumpCounts_starting (c : StatusSummaryCounts) (sc : Option Int) :
    (bumpCounts c sc).starting = c.starting + (if sc == some 3 then 1 else 0) := by
  unfold bumpCounts
  split_ifs <;> simp_all

lemma bumpCounts_stopped (c : StatusSummaryCounts) (sc : Option Int) :
    (bumpCounts c sc).stopped = c.stopped + (if sc == some 4 then 1 else 0) := by
  unfold bumpCounts
  split_ifs <;> simp_all

lemma bumpCounts_unknown (c : StatusSummaryCounts) (sc : Option Int) :
    (bumpCounts c sc).unknown =
      c.unknown + (if (sc == some 5 || sc == none) then 1 else 0) := by
  unfold bumpCounts
  split_ifs <;> simp_all

lemma bumpCounts_others (c : StatusSummaryCounts) (sc : Option Int) :
    (bumpCounts c sc).others =
      c.others + (if !(sc == some 0 || sc == some 1 || sc == some 2 || sc == some 3 ||
        sc == some 4 || sc == some 5 || sc == none) then 1 else 0) := by
  unfold bumpCounts
  split_ifs <;> simp_all

lemma groupTally_proj (statusMap : String → Option ServiceStatusSummary)
    (proj : StatusSummaryCounts → Nat) (pred : Option Int → Bool)
    (hbump : ∀ c sc, proj (bumpCounts c sc) = proj c + (if pred sc then 1 else 0)) :
    ∀ (members : List ServiceNode) (c0 : StatusSummaryCounts),
      proj (groupTally statusMap c0 members) =
        proj c0 +
          (members.filter (fun s => pred (lastStatusCodeOf statusMap s.service_id))).length := by
  intro members
  induction members with
  | nil =>
    intro c0
    simp [groupTally]
  | cons s rest ih =>
    intro c0
    rw [show groupTally statusMap c0 (s :: rest) =
        groupTally statusMap (bumpCounts c0 (lastStatusCodeOf statusMap s.service_id)) rest
      from rfl]
    rw [ih, hbump]
    by_cases hp : pred (lastStatusCodeOf statusMap s.service_id)
    · simp only [List.filter_cons, hp, if_true, List.length_cons]
      omega
    · simp [List.filter_cons, hp]

lemma lookup_objSet_self (m : List (String × ServiceStatus)) (key : String)
    (v : ServiceStatus) : (objSet m key v).lookup key = some v := by
  induction m with
  | nil => simp [objSet, lookup_cons_pair]
  | cons kv rest ih =>
    obtain ⟨k, w⟩ := kv
    by_cases h : k = key
    · subst h
      simp [objSet, lookup_cons_pair]
    · rw [show objSet ((k, w) :: rest) key v = (k, w) :: objSet rest key v by
        simp [objSet, h]]
      rw [lookup_cons_pair]
      simp [Ne.symm h, ih]

lemma lookup_objSet_ne (m : List (String × ServiceStatus)) (key key' : String)
    (v : ServiceStatus) (h : key' ≠ key) :
    (objSet m key v).lookup key' = m.lookup key' := by
  induction m with
  | nil => simp [objSet, lookup_cons_pair, h]
  | cons kv rest ih =>
    obtain ⟨k, w⟩ := kv
    by_cases hk : k = key
    · subst hk
      rw [show objSet ((k, w) :: rest) k v = (k, v) :: rest by simp [objSet]]
      rw [lookup_cons_pair, lookup_cons_pair]
      simp [h]
    · rw [show objSet ((k, w) :: rest) key v = (k, w) :: objSet rest key v by
        simp [objSet, hk]]
      rw [lookup_cons_pair, lookup_cons_pair, ih]

lemma notifyStatusUpdate_map_fst (st : MState) :
    (notifyStatusUpdate st).map Prod.fst = st.statusUpdateCallbacks.map StatusCallback.id := by
  simp [notifyStatusUpdate, List.map_map]

lemma fetchFold_spec (resp : String → Option ServiceStatus) :
    ∀ (ids : List String) (st : MState) (acc : List NotifyTrace),
      (fetchFold resp ids (st, acc)).1.serviceIds = st.serviceIds ∧
      (fetchFold resp ids (st, acc)).1.statusUpdateCallbacks = st.statusUpdateCallbacks ∧
      (fetchFold resp ids (st, acc)).1.errorCallbacks = st.errorCallbacks ∧
      (fetchFold resp ids (st, acc)).2.length =
        acc.length + (ids.filter (fun i => (resp i).isSome)).length ∧
      (∀ tr, tr ∈ (fetchFold resp ids (st, acc)).2 → tr ∈ acc ∨
        tr.map Prod.fst = st.statusUpdateCallbacks.map StatusCallback.id) ∧
      (∀ i status, i ∈ ids → resp i = some status →
        (fetchFold resp ids (st, acc)).1.statusMap.lookup i = some status) ∧
      (∀ i, i ∉ ids →
        (fetchFold resp ids (st, acc)).1.statusMap.lookup i = st.statusMap.lookup i) := by
  intro ids
  induction ids with
  | nil =>
    intro st acc
    refine ⟨rfl, rfl, rfl, by simp [fetchFold], ?_, ?_, ?_⟩
    · intro tr htr
      exact Or.inl htr
    · intro i status hi
      exact absurd hi (List.not_mem_nil i)
    · intro i _
      rfl
  | cons i rest ih =>
    intro st acc
    cases hri : resp i with
    | none =>
      have hunf : fetchFold resp (i :: rest) (st, acc) = fetchFold resp rest (st, acc) := by
        simp [fetchFold, List.foldl_cons, hri]
      rw [hunf]
      obtain ⟨h1, h2, h3, h4, h5, h6, h7⟩ := ih st acc
      refine ⟨h1, h2, h3, ?_, h5, ?_, ?_⟩
      · rw [h4]
        simp [List.filter_cons, hri]
      · intro i' status hi' hresp
        rcases List.mem_cons.mp hi' with rfl | hi''
        · rw [hri] at hresp
          exact absurd hresp (by simp)
        · exact h6 i' status hi'' hresp
      · intro i' hni
        exact h7 i' (fun h => hni (List.mem_cons_of_mem _ h))
    | some status =>
      have hunf : fetchFold resp (i :: rest) (st, acc) =
          fetchFold resp rest ((updateServiceStatus st i status).1,
            acc ++ [(updateServiceStatus st i status).2]) := by
        simp [fetchFold, List.foldl_cons, hri]
      rw [hunf]
      obtain ⟨h1, h2, h3, h4, h5, h6, h7⟩ := ih (updateServiceStatus st i status).1
        (acc ++ [(updateServiceStatus st i status).2])
      have hsvc : (updateServiceStatus st i status).1.serviceIds = st.serviceIds := rfl
      have hcb : (updateServiceStatus st i status).1.statusUpdateCallbacks =
          st.statusUpdateCallbacks := rfl
      have hecb : (updateServiceStatus st i status).1.errorCallbacks =
          st.errorCallbacks := rfl
      have hmap : (updateServiceStatus st i status).1.statusMap =
          objSet st.statusMap i status := rfl
      refine ⟨h1.trans hsvc, h2.trans hcb, h3.trans hecb, ?_, ?_, ?_, ?_⟩
      · rw [h4]
        simp [List.filter_cons, hri]
        omega
      · intro tr htr
        rcases h5 tr htr with htr' | heq
        · rcases List.mem_append.mp htr' with h | h
          · exact Or.inl h
          · have htr2 : tr = (updateServiceStatus st i status).2 := by simpa using h
            subst htr2
            refine Or.inr ?_
            rw [show (updateServiceStatus st i status).2 =
              notifyStatusUpdate (updateServiceStatus st i status).1 from rfl]
            rw [notifyStatusUpdate_map_fst, hcb]
        · exact Or.inr (heq.trans (by rw [hcb]))
      · intro i' status' hi' hresp
        by_cases hir : i' ∈ rest
        · exact h6 i' status' hir hresp
        · rcases List.mem_cons.mp hi' with rfl | hcontra
          · rw [h7 i' hir, hmap]
            rw [hri] at hresp
            injection hresp with hst
            rw [← hst]
            exact lookup_objSet_self st.statusMap i' status
          · exact absurd hcontra hir
      · intro i' hni
        rw [h7 i' (fun h => hni (List.mem_cons_of_mem _ h)), hmap]
        exact lookup_objSet_ne _ _ _ _
          (fun heq => hni (heq ▸ List.mem_cons_self i rest))

/- ================================================================
   Claim theorems.
   ================================================================ -/

/-- C2 counterexample: on the two-node cycle with edges A to B and B to A,
the traversal returns the origin itself, so the claimed x not-in
downstream(x) fails and downstream(A) is not the claimed singleton set
containing only B. -/
theorem downstream_cycle_includes_origin :
    ((⟨"A"⟩ : FlowNode) ∈ get_downstream_dependents "A" cycNodes cycEdges) ∧
    get_downstream_dependents "A" cycNodes cycEdges ≠ [(⟨"B"⟩ : FlowNode)] := by
  constructor
  · decide
  · decide

/-- C2 amended: for every graph and every service id x that does not lie
on a directed cycle, x is not a member of downstream(x) and not a member
of upstream(x); on the two-node cycle A to B, B to A the traversal
terminates but includes the origin: downstream(A) and downstream(B) both
equal the set containing A and B. -/
theorem downstream_upstream_origin_amended :
    (∀ (nodes : List FlowNode) (edges : List FlowEdge) (x : String),
      ¬ Relation.TransGen (DownStep edges) x x →
      (∀ n, n ∈ get_downstream_dependents x nodes edges → n.id ≠ x) ∧
      (∀ n, n ∈ get_upstream_dependencies x nodes edges → n.id ≠ x)) ∧
    get_downstream_dependents "A" cycNodes cycEdges = [⟨"A"⟩, ⟨"B"⟩] ∧
    get_downstream_dependents "B" cycNodes cycEdges = [⟨"A"⟩, ⟨"B"⟩] := by
  refine ⟨?_, rfl, rfl⟩
  intro nodes edges x hcyc
  constructor
  · intro n hn hid
    have hmem := (mem_get_downstream_iff x nodes edges n).mp hn
    rw [hid] at hmem
    exact hcyc hmem.2
  · intro n hn hid
    have hmem := (mem_get_upstream_iff x nodes edges n).mp hn
    rw [hid] at hmem
    exact hcyc ((upStep_cycle_iff edges x).mp hmem.2)

/-- C2 witness: the amended theorem applied to the edgeless one-node
graph, whose origin lies on no cycle. -/
theorem downstream_upstream_origin_amended_witness :
    (¬ Relation.TransGen (DownStep ([] : List FlowEdge)) "A" "A") ∧
    (∀ n, n ∈ get_downstream_dependents "A" [(⟨"A"⟩ : FlowNode)] [] → n.id ≠ "A") := by
  have hnc : ¬ Relation.TransGen (DownStep ([] : List FlowEdge)) "A" "A" :=
    transGen_stepG_nil _ _ _ _
  exact ⟨hnc, (downstream_upstream_origin_amended.1 [⟨"A"⟩] [] "A" hnc).1⟩

/-- C7: for every graph, if node y is downstream of x and node z is
downstream of the id of y, then z is downstream of x - the downstream
query computes a transitive closure of the source-to-target edge
relation.  Membership in a downstream result already implies presence in
the node list, which covers the presence proviso of the claim. -/
theorem downstream_transitive :
    ∀ (nodes : List FlowNode) (edges : List FlowEdge) (x : String) (y z : FlowNode),
      y ∈ get_downstream_dependents x nodes edges →
      z ∈ get_downstream_dependents y.id nodes edges →
      z ∈ get_downstream_dependents x nodes edges := by
  intro nodes edges x y z hy hz
  have hy' := (mem_get_downstream_iff x nodes edges y).mp hy
  have hz' := (mem_get_downstream_iff y.id nodes edges z).mp hz
  exact (mem_get_downstream_iff x nodes edges z).mpr ⟨hz'.1, hy'.2.trans hz'.2⟩

/-- C7 witness: on the chain A to B to C, B is downstream of A and C is
downstream of B, so the theorem puts C downstream of A. -/
theorem downstream_transitive_witness :
    ((⟨"B"⟩ : FlowNode) ∈ get_downstream_dependents "A" chainNodes chainEdges) ∧
    ((⟨"C"⟩ : FlowNode) ∈ get_downstream_dependents "B" chainNodes chainEdges) ∧
    ((⟨"C"⟩ : FlowNode) ∈ get_downstream_dependents "A" chainNodes chainEdges) :=
  ⟨by decide, by decide,
    downstream_transitive chainNodes chainEdges "A" ⟨"B"⟩ ⟨"C"⟩ (by decide) (by decide)⟩

/-- C8: for every graph and every outage root list, the outage-affected
set equals the union of the roots with the downstream dependents of every
root; it collapses to exactly the root set when no root has downstream
dependents, and it is empty for an empty root set. -/
theorem outageAffectedIds_spec :
    ∀ (serviceNodes : List ServiceNode) (serviceEdges : List ServiceRelation)
      (roots : List String),
      (∀ z, z ∈ outageAffectedIds serviceNodes serviceEdges roots ↔
        z ∈ roots ∨ ∃ r, r ∈ roots ∧
          ∃ n, n ∈ get_downstream_dependents r (tempNodes serviceNodes)
            (tempEdges serviceEdges) ∧ n.id = z) ∧
      ((∀ r, r ∈ roots → get_downstream_dependents r (tempNodes serviceNodes)
          (tempEdges serviceEdges) = []) →
        ∀ z, z ∈ outageAffectedIds serviceNodes serviceEdges roots ↔ z ∈ roots) ∧
      outageAffectedIds serviceNodes serviceEdges [] = [] := by
  intro serviceNodes serviceEdges roots
  refine ⟨?_, ?_, rfl⟩
  · intro z
    rw [mem_outageAffectedIds]
    constructor
    · rintro ⟨r, hr, rfl | ⟨n, hn, rfl⟩⟩
      · exact Or.inl hr
      · exact Or.inr ⟨r, hr, n, hn, rfl⟩
    · rintro (hz | ⟨r, hr, n, hn, rfl⟩)
      · exact ⟨z, hz, Or.inl rfl⟩
      · exact ⟨r, hr, Or.inr ⟨n, hn, rfl⟩⟩
  · intro hempty z
    rw [mem_outageAffectedIds]
    constructor
    · rintro ⟨r, hr, rfl | ⟨n, hn, rfl⟩⟩
      · exact hr
      · rw [hempty r hr] at hn
        exact absurd hn (List.not_mem_nil n)
    · intro hz
      exact ⟨z, hz, Or.inl rfl⟩

/-- C8 witness: on the chain A to B to C, the affected set of root A
contains C; root C has no dependents, so its affected set collapses to
the roots; the empty root set yields the empty set. -/
theorem outageAffectedIds_spec_witness :
    ("C" ∈ outageAffectedIds chainSvcNodes chainSvcEdges ["A"]) ∧
    (∀ r, r ∈ ["C"] → get_downstream_dependents r (tempNodes chainSvcNodes)
      (tempEdges chainSvcEdges) = []) ∧
    (("B" ∈ outageAffectedIds chainSvcNodes chainSvcEdges ["C"]) ↔ ("B" ∈ ["C"])) ∧
    outageAffectedIds chainSvcNodes chainSvcEdges [] = [] := by
  refine ⟨?_, by decide, ?_, (outageAffectedIds_spec chainSvcNodes chainSvcEdges []).2.2⟩
  · exact ((outageAffectedIds_spec chainSvcNodes chainSvcEdges ["A"]).1 "C").mpr
      (Or.inr ⟨"A", by decide, ⟨"C"⟩, by decide, rfl⟩)
  · exact (outageAffectedIds_spec chainSvcNodes chainSvcEdges ["C"]).2.1 (by decide) "B"

/-- C9: for every node list and every status assignment, the per-group
tally classifies each node into exactly one bucket according to its status
code (0 ok, 1 degraded, 2 failed, 3 starting, 4 stopped, 5 or missing
record unknown, anything else others); every group total equals the number
of member nodes and the seven bucket counts sum to that total. -/
theorem statusSummaryByType_spec :
    ∀ (services : List ServiceNode) (statusMap : String → Option ServiceStatusSummary)
      (k : String) (c : StatusSummaryCounts),
      (statusSummaryByType services statusMap).lookup k = some c →
      c.total = (services.filter (fun s => serviceGroupKey s == k)).length ∧
      c.ok + c.degraded + c.failed + c.starting + c.stopped + c.unknown + c.others =
        c.total ∧
      c.ok = ((services.filter (fun s => serviceGroupKey s == k)).filter
        (fun s => lastStatusCodeOf statusMap s.service_id == some 0)).length ∧
      c.degraded = ((services.filter (fun s => serviceGroupKey s == k)).filter
        (fun s => lastStatusCodeOf statusMap s.service_id == some 1)).length ∧
      c.failed = ((services.filter (fun s => serviceGroupKey s == k)).filter
        (fun s => lastStatusCodeOf statusMap s.service_id == some 2)).length ∧
      c.starting = ((services.filter (fun s => serviceGroupKey s == k)).filter
        (fun s => lastStatusCodeOf statusMap s.service_id == some 3)).length ∧
      c.stopped = ((services.filter (fun s => serviceGroupKey s == k)).filter
        (fun s => lastStatusCodeOf statusMap s.service_id == some 4)).length ∧
      c.unknown = ((services.filter (fun s => serviceGroupKey s == k)).filter
        (fun s => lastStatusCodeOf statusMap s.service_id == some 5 ||
          lastStatusCodeOf statusMap s.service_id == none)).length ∧
      c.others = ((services.filter (fun s => serviceGroupKey s == k)).filter
        (fun s => !(lastStatusCodeOf statusMap s.service_id == some 0 ||
          lastStatusCodeOf statusMap s.service_id == some 1 ||
          lastStatusCodeOf statusMap s.service_id == some 2 ||
          lastStatusCodeOf statusMap s.service_id == some 3 ||
          lastStatusCodeOf statusMap s.service_id == some 4 ||
          lastStatusCodeOf statusMap s.service_id == some 5 ||
          lastStatusCodeOf statusMap s.service_id == none))).length := by
  intro services statusMap k c hc
  have hgt := statusSummaryByType_lookup services statusMap k c hc
  subst hgt
  have htotal := groupTally_proj statusMap (fun x => x.total) (fun _ => true)
    (fun c sc => by simp [bumpCounts_total])
    (services.filter (fun s => serviceGroupKey s == k)) zeroCounts
  have hsum := groupTally_proj statusMap
    (fun x => x.ok + x.degraded + x.failed + x.starting + x.stopped + x.unknown + x.others)
    (fun _ => true)
    (fun c sc => by simp [bumpCounts_sum c sc])
    (services.filter (fun s => serviceGroupKey s == k)) zeroCounts
  have htot2 : (groupTally statusMap zeroCounts
      (services.filter (fun s => serviceGroupKey s == k))).total =
      (services.filter (fun s => serviceGroupKey s == k)).length := by
    simpa [zeroCounts] using htotal
  have hsum2 : (groupTally statusMap zeroCounts
        (services.filter (fun s => serviceGroupKey s == k))).ok +
      (groupTally statusMap zeroCounts
        (services.filter (fun s => serviceGroupKey s == k))).degraded +
      (groupTally statusMap zeroCounts
        (services.filter (fun s => serviceGroupKey s == k))).failed +
      (groupTally statusMap zeroCounts
        (services.filter (fun s => serviceGroupKey s == k))).starting +
      (groupTally statusMap zeroCounts
        (services.filter (fun s => serviceGroupKey s == k))).stopped +
      (groupTally statusMap zeroCounts
        (services.filter (fun s => serviceGroupKey s == k))).unknown +
      (groupTally statusMap zeroCounts
        (services.filter (fun s => serviceGroupKey s == k))).others =
      (services.filter (fun s => serviceGroupKey s == k)).length := by
    simpa [zeroCounts] using hsum
  have hok := groupTally_proj statusMap (fun x => x.ok) (fun sc => sc == some 0)
    (fun c sc => by simp [bumpCounts_ok])
    (services.filter (fun s => serviceGroupKey s == k)) zeroCounts
  have hdeg := groupTally_proj statusMap (fun x => x.degraded) (fun sc => sc == some 1)
    (fun c sc => by simp [bumpCounts_degraded])
    (services.filter (fun s => serviceGroupKey s == k)) zeroCounts
  have hfail := groupTally_proj statusMap (fun x => x.failed) (fun sc => sc == some 2)
    (fun c sc => by simp [bumpCounts_failed])
    (services.filter (fun s => serviceGroupKey s == k)) zeroCounts
  have hstart := groupTally_proj statusMap (fun x => x.starting) (fun sc => sc == some 3)
    (fun c sc => by simp [bumpCounts_starting])
    (services.filter (fun s => serviceGroupKey s == k)) zeroCounts
  have hstop := groupTally_proj statusMap (fun x => x.stopped) (fun sc => sc == some 4)
    (fun c sc => by simp [bumpCounts_stopped])
    (services.filter (fun s => serviceGroupKey s == k)) zeroCounts
  have hunk := groupTally_proj statusMap (fun x => x.unknown)
    (fun sc => sc == some 5 || sc == none)
    (fun c sc => by simp [bumpCounts_unknown])
    (services.filter (fun s => serviceGroupKey s == k)) zeroCounts
  have hoth := groupTally_proj statusMap (fun x => x.others)
    (fun sc => !(sc == some 0 || sc == some 1 || sc == some 2 || sc == some 3 ||
      sc == some 4 || sc == some 5 || sc == none))
    (fun c sc => by simp [bumpCounts_others])
    (services.filter (fun s => serviceGroupKey s == k)) zeroCounts
  simp only [zeroCounts] at hok hdeg hfail hstart hstop hunk hoth
  refine ⟨htot2, hsum2.trans htot2.symm, by simpa using hok, by simpa using hdeg,
    by simpa using hfail, by simpa using hstart, by simpa using hstop,
    by simpa using hunk, by simpa using hoth⟩

/-- C9 witness: on the chain nodes with service A OK, service B without a
record and service C reporting code 9, the Platform group tallies one OK,
one unknown, total two. -/
theorem statusSummaryByType_spec_witness :
    ((statusSummaryByType chainSvcNodes smapW).lookup "Platform" =
      some ⟨1, 0, 0, 0, 0, 1, 0, 2⟩) ∧
    ((⟨1, 0, 0, 0, 0, 1, 0, 2⟩ : StatusSummaryCounts).total =
      (chainSvcNodes.filter (fun s => serviceGroupKey s == "Platform")).length) :=
  ⟨rfl, (statusSummaryByType_spec chainSvcNodes smapW "Platform" _ rfl).1⟩

/-- C1 counterexample: a batch fetch whose response applies two records
triggers two notification fan-outs, not the single notification the claim
demands for the whole batch. -/
theorem fetchAllStatus_batch_two_notifications :
    ((fetchAllStatusResolve mstBatch respBatch).2.length = 2) ∧
    ((fetchAllStatusResolve mstBatch respBatch).2.length ≠ 1) := by
  constructor
  · rfl
  · decide

/-- C1 amended: resolving a batch fetch produces one notification fan-out
per applied record (as many fan-outs as tracked ids present in the
response, each delivered to every subscribed callback), and a point lookup
for each tracked id present in the response returns that id record from
the response. -/
theorem fetchAllStatus_per_record_notifications :
    ∀ (st : MState) (resp : String → Option ServiceStatus),
      (fetchAllStatusResolve st resp).2.length =
        (st.serviceIds.filter (fun serviceId => (resp serviceId).isSome)).length ∧
      (∀ tr, tr ∈ (fetchAllStatusResolve st resp).2 →
        tr.map Prod.fst = st.statusUpdateCallbacks.map StatusCallback.id) ∧
      (∀ serviceId status, serviceId ∈ st.serviceIds → resp serviceId = some status →
        (fetchAllStatusResolve st resp).1.statusMap.lookup serviceId = some status) := by
  intro st resp
  have heq : fetchAllStatusResolve st resp = fetchFold resp st.serviceIds (st, []) := rfl
  obtain ⟨h1, h2, h3, h4, h5, h6, h7⟩ := fetchFold_spec resp st.serviceIds st []
  rw [heq]
  refine ⟨by simpa using h4, ?_, h6⟩
  intro tr htr
  rcases h5 tr htr with hin | hmap
  · exact absurd hin (List.not_mem_nil tr)
  · exact hmap

/-- C1 amended witness: in the two-service batch scenario the store ends
up holding the record the response carried for service a. -/
theorem fetchAllStatus_per_record_notifications_witness :
    ("a" ∈ mstBatch.serviceIds) ∧ (respBatch "a" = some recA) ∧
    ((fetchAllStatusResolve mstBatch respBatch).1.statusMap.lookup "a" = some recA) :=
  ⟨by decide, rfl,
    (fetchAllStatus_per_record_notifications mstBatch respBatch).2.2 "a" recA
      (by decide) rfl⟩

/-- C10: both notification fan-outs invoke every subscribed callback
exactly once with the same snapshot (respectively the same error),
whatever the callbacks do - a throwing callback is caught by the
per-callback try/catch and never prevents the remaining callbacks from
being invoked, as witnessed by the trace covering the full callback set
with the outcome of each invocation recorded. -/
theorem notify_fanout_reaches_all_subscribers :
    ∀ (st : MState) (error : String),
      (notifyStatusUpdate st).map Prod.fst =
        st.statusUpdateCallbacks.map StatusCallback.id ∧
      (notifyStatusUpdate st).map (fun r => r.2.1) =
        st.statusUpdateCallbacks.map (fun _ => getStatusMap st) ∧
      (notifyError st error).map Prod.fst = st.errorCallbacks.map ErrorCallback.id ∧
      (notifyError st error).map (fun r => r.2.1) =
        st.errorCallbacks.map (fun _ => error) := by
  intro st error
  refine ⟨notifyStatusUpdate_map_fst st, ?_, ?_, ?_⟩ <;>
    · simp only [notifyStatusUpdate, notifyError, List.map_map]
      rfl

/-- C6: while the fallback poller is running, an SSE error event
reschedules the next poll to fire no later than 5000 ms after the event,
and a successfully applied live update for a tracked service reschedules
the poll timer to the base interval measured from the update. -/
theorem poller_reschedule_on_error_and_update :
    ∀ (st : MState) (now : Nat) (statusUpdate : ServiceStatus),
      st.pollInterval.isSome = true →
      (∃ timer, (handleSSEError st now).pollInterval = some timer ∧
        timer.due ≤ now + 5000) ∧
      (st.serviceIds.contains statusUpdate.service_id = true →
        (handleSSEMessage st now statusUpdate).1.pollInterval =
          some ⟨now + st.fallbackPollIntervalMs, st.fallbackPollIntervalMs⟩) := by
  intro st now statusUpdate hpoll
  constructor
  · refine ⟨⟨now + 5000, 5000⟩, ?_, le_refl _⟩
    simp [handleSSEError, accelerateFallbackPolling, hpoll]
  · intro htracked
    have hmem : statusUpdate.service_id ∈ st.serviceIds := by simpa using htracked
    simp [handleSSEMessage, hmem, resetFallbackPolling, updateServiceStatus,
      startFallbackPolling, hpoll]

/-- C6 witness: with a base-interval poller running at time 7000, an SSE
error schedules the next poll within 5000 ms and a live update for the
tracked service a reschedules the poller to the base interval. -/
theorem poller_reschedule_witness :
    (mstPolling.pollInterval.isSome = true) ∧
    (∃ timer, (handleSSEError mstPolling 7000).pollInterval = some timer ∧
      timer.due ≤ 7000 + 5000) ∧
    (mstPolling.serviceIds.contains recA.service_id = true) ∧
    ((handleSSEMessage mstPolling 7000 recA).1.pollInterval =
      some ⟨7000 + mstPolling.fallbackPollIntervalMs, mstPolling.fallbackPollIntervalMs⟩) := by
  have h := poller_reschedule_on_error_and_update mstPolling 7000 recA (by decide)
  exact ⟨by decide, h.1, by decide, h.2 (by decide)⟩

/-- C4: cleanup is idempotent and clears the channels and the poll timer,
but the reconnect timeout scheduled by the WebSocket close handler is not
stored on the class, survives cleanup, and on firing finds wsConnection
null and so establishes a fresh live channel after disposal. -/
theorem reconnect_after_cleanup_establishes_channel :
    (∀ st : MState, cleanup (cleanup st) = cleanup st) ∧
    ((cleanupRuntime (handleWsClose rtClose)).mgr.wsConnection = none) ∧
    ((cleanupRuntime (handleWsClose rtClose)).mgr.pollInterval = none) ∧
    ((cleanupRuntime (handleWsClose rtClose)).pendingReconnects = [5000]) ∧
    ((fireReconnect (cleanupRuntime (handleWsClose rtClose)) 5000).mgr.wsConnection =
      some WsReadyState.connecting) :=
  ⟨fun _ => rfl, rfl, rfl, rfl, rfl⟩

/-- C5: a batch fetch in flight when cleanup runs still writes into the
status store when it later resolves - the store that held the old record
for svc before disposal holds the newly fetched record afterwards. -/
theorem late_fetch_mutates_store_after_cleanup :
    (getServiceStatus mstDispose "svc" = some oldRec) ∧
    ((fetchAllStatusResolve (cleanup mstDispose) respDispose).1.statusMap.lookup "svc" =
      some newRec) ∧
    newRec ≠ oldRec := by
  refine ⟨rfl, rfl, by decide⟩

/-- C3 counterexample: the snapshot returned by getStatusMap hands out the
same record reference the store holds, so mutating the message field of
the record reached through the snapshot changes what a later store lookup
returns. -/
theorem snapshot_mutation_counterexample :
    ((StatusManagerHeap.getStatusMap mgrSnap).lookup "a" = some 0) ∧
    (StatusManagerHeap.getServiceStatus mgrSnap
        (StatusManagerHeap.writeField heapSnap 0 mutateMessage) "a" ≠
      StatusManagerHeap.getServiceStatus mgrSnap heapSnap "a") := by
  refine ⟨rfl, by decide⟩

/-- C3 amended: getStatusMap returns a shallow copy - the snapshot carries
the same key-to-reference bindings as the store, so mutating a field of a
record object reached through the snapshot makes a later store lookup
return the mutated record. -/
theorem getStatusMap_shallow_copy :
    ∀ (m : StatusManagerHeap.ManagerObj) (h : StatusManagerHeap.Heap) (serviceId : String)
      (ref : Nat)
      (mutate : StatusManagerHeap.ServiceStatusObj → StatusManagerHeap.ServiceStatusObj),
      ((StatusManagerHeap.getStatusMap m).lookup serviceId =
        m.statusMap.lookup serviceId) ∧
      ((StatusManagerHeap.getStatusMap m).lookup serviceId = some ref →
        StatusManagerHeap.getServiceStatus m
          (StatusManagerHeap.writeField h ref mutate) serviceId =
          some (mutate (h.recs ref))) := by
  intro m h serviceId ref mutate
  refine ⟨rfl, ?_⟩
  intro href
  unfold StatusManagerHeap.getServiceStatus StatusManagerHeap.writeField
  rw [show m.statusMap.lookup serviceId = some ref from href]
  simp

/-- C3 witness: the snapshot of the one-entry store binds service a to
reference 0, and writing the message field through that reference is
visible in the next store lookup. -/
theorem getStatusMap_shallow_copy_witness :
    ((StatusManagerHeap.getStatusMap mgrSnap).lookup "a" = some 0) ∧
    (StatusManagerHeap.getServiceStatus mgrSnap
        (StatusManagerHeap.writeField heapSnap 0 mutateMessage) "a" =
      some (mutateMessage (heapSnap.recs 0))) :=
  ⟨rfl, (getStatusMap_shallow_copy mgrSnap heapSnap "a" 0 mutateMessage).2 rfl⟩
